import Mathlib

/-!
Verification of the xds-server SDK-management core.

This file shallowly embeds the SDK data model and operations of
`lib/xdsserver/sdk.go` (the CrossSDK type: NewCrossSDK, Install with its
output and exit callbacks, AbortInstallRemove, Remove) and the catalog
reconciler `scripts/sdks/agl/db-dump`, and proves or refutes the frozen
claims about them.

Conventions used throughout:
- Go strings are Lean String; Go len() (a byte count) is modelled by
  goStrLen, the UTF-8 byte length.
- Fallible external effects (process spawn, the remove script, filesystem
  existence checks, the environment, the external uuid hash and the
  transport socket lookup) are passed in as explicit parameters, so every
  definition is executable on concrete inputs.
- Status strings come from the xsapiv1 package, which is not among the
  provided sources; the two statuses that also appear in db-dump
  ("Not Installed" and "Installed") are taken from there, the others are
  modelled from the spec state names.
-/

namespace XdsServer

/-- Modelled from the spec: xsapiv1.SdkStatusNotInstalled. The literal
"Not Installed" is corroborated by the db-dump script, which writes this
exact status string. -/
def sdkStatusNotInstalled : String := "Not Installed"

/-- Modelled from the spec: xsapiv1.SdkStatusInstalling (xsapiv1 is not in
the provided sources; the spec names this state Installing). -/
def sdkStatusInstalling : String := "Installing"

/-- Modelled from the spec: xsapiv1.SdkStatusInstalled. The literal
"Installed" is corroborated by the db-dump script. -/
def sdkStatusInstalled : String := "Installed"

/-- Modelled from the spec: xsapiv1.SdkStatusUninstalling (xsapiv1 is not in
the provided sources; the spec names this state Uninstalling). -/
def sdkStatusUninstalling : String := "Uninstalling"

/-- The xsapiv1.SDK record (catalog/installation record of one SDK), with
the fields used by sdk.go. A Go zero value is the empty string. -/
structure SDK where
  id : String := ""
  name : String := ""
  description : String := ""
  profile : String := ""
  version : String := ""
  arch : String := ""
  path : String := ""
  url : String := ""
  status : String := ""
  date : String := ""
  size : String := ""
  md5sum : String := ""
  setupFile : String := ""
  lastError : String := ""
deriving Repr, DecidableEq

/-- The fields of the eows.ExecOverWS job handle that sdk.go sets up in
Install (lines 193-204): the unique command id string, the script
arguments, and the execution timeout in seconds. -/
structure InstallJob where
  cmdID : String := ""
  args : List String := []
  cmdExecTimeout : Int := 0
deriving Repr, DecidableEq

/-- The mutable state of one CrossSDK instance (sdk.go lines 57-66): the
SDK record, the install job handle (some job while installCmd is non-nil)
and the two output buffers of the temporary buffering hack. -/
structure CrossSDKState where
  sdk : SDK := {}
  installCmd : Option InstallJob := none
  bufStdout : String := ""
  bufStderr : String := ""
deriving Repr, DecidableEq

/-- The xsapiv1.SDKManagementMsg progress event emitted over the transport
(timestamp omitted: wall-clock time). -/
structure SDKManagementMsg where
  cmdID : String := ""
  sdk : SDK := {}
  progress : Nat := 0
  exited : Bool := false
  stdout : String := ""
  stderr : String := ""
  code : Int := 0
  error : String := ""
deriving Repr, DecidableEq

/-- Go len() of a string: its UTF-8 byte length. -/
def goStrLen (s : String) : Nat := (s.data.map Char.utf8Size).sum

/-- Helper for goAtoi: parse a signed decimal digit list, rejecting empty
or non-digit input and values outside the 64-bit int range, as Go
strconv.Atoi does (Atoi returns a non-nil error in each of these cases,
which sdk.go treats as no override). -/
def goAtoiCore (sign : Int) (digits : List Char) : Option Int :=
  if digits = [] then none
  else if digits.all Char.isDigit then
    let n : Nat := digits.foldl (fun acc c => acc * 10 + (c.toNat - 48)) 0
    let v : Int := sign * (n : Int)
    if -(2 ^ 63) ≤ v ∧ v ≤ 2 ^ 63 - 1 then some v else none
  else none

/-- Go strconv.Atoi: optional single leading sign, then decimal digits. -/
def goAtoi (s : String) : Option Int :=
  match s.data with
  | '+' :: rest => goAtoiCore 1 rest
  | '-' :: rest => goAtoiCore (-1) rest
  | l => goAtoiCore 1 l

/-- The stdout/stderr buffering thresholds of Install (sdk.go lines
209-220): defaults 10 and 2000, each overridden by its environment
variable only when the variable is set and strconv.Atoi succeeds. The
environment is modelled as a finite map from variable name to value. -/
def computeBufSizes (env : String → Option String) : Int × Int :=
  let sizeOut : Int :=
    match env ("XDS_SDK_BUF_STDOUT") with
    | some valS => match goAtoi valS with | some valI => valI | none => 10
    | none => 10
  let sizeErr : Int :=
    match env ("XDS_SDK_BUF_STDERR") with
    | some valS => match goAtoi valS with | some valI => valI | none => 2000
    | none => 2000
  (sizeOut, sizeErr)

/-- Install errors, named per the spec error taxonomy; the spawn payload
carries the underlying process-spawn error message. -/
inductive InstallErr
  | alreadyInstalled
  | installInProgress
  | spawn (msg : String)
deriving Repr, DecidableEq

/-- The command argument list built by Install (sdk.go lines 182-191):
either --file or --url, plus --force when requested. -/
def installArgs (file url : String) (force : Bool) : List String :=
  (if file ≠ "" then ["--file", file] else ["--url", url])
    ++ (if force then ["--force"] else [])

/-- Embeds CrossSDK.Install (sdk.go lines 173-360) up to the point where it
returns to the caller. Precondition checks come first and return with no
state change. Otherwise the job handle is created (with the unique command
id built from the incremented global counter, passed in as sdkCmdIDNext),
the buffers are zeroed, the thresholds are read from env, status is set to
Installing and lastError cleared, and the job is started; spawnErr models
the result of installCmd.Start() (none on success). The returned triple is
the state after Install returns, the thresholds captured by the callbacks
(none when Install returned before computing them), and the error result.
Note that on spawn failure the code returns the error without touching the
state again. -/
def install (st : CrossSDKState) (file : String) (force : Bool) (timeout : Int)
    (sdkCmdIDNext : Nat) (env : String → Option String) (spawnErr : Option String) :
    CrossSDKState × Option (Int × Int) × Option InstallErr :=
  if st.sdk.status = sdkStatusInstalled then
    (st, none, some InstallErr.alreadyInstalled)
  else if st.sdk.status = sdkStatusInstalling then
    (st, none, some InstallErr.installInProgress)
  else
    let job : InstallJob :=
      { cmdID := "sdk-install-" ++ toString sdkCmdIDNext,
        args := installArgs file st.sdk.url force,
        cmdExecTimeout := if 0 < timeout then timeout else 30 * 60 }
    let bufSizes := computeBufSizes env
    let st1 : CrossSDKState :=
      { st with installCmd := some job, bufStdout := "", bufStderr := "" }
    let st2 : CrossSDKState :=
      { st1 with sdk := { st1.sdk with status := sdkStatusInstalling, lastError := "" } }
    match spawnErr with
    | some m => (st2, some bufSizes, some (InstallErr.spawn m))
    | none => (st2, some bufSizes, none)

/-- Embeds the OutputCB closure of Install (sdk.go lines 223-269).
sockOpen models whether sessions.IOSocketGet finds a live socket for the
session id: when it does not, the callback returns at once, dropping the
chunk. Otherwise the chunk is appended to the buffers and, when either
buffer exceeds its threshold, one non-terminal progress event carrying
both buffers is emitted and the buffers are reset. Returns the new state
and the emitted event, if any. -/
def outputCB (bufSizes : Int × Int) (sockOpen : Bool) (cmdID : String)
    (st : CrossSDKState) (stdout stderr : String) :
    CrossSDKState × Option SDKManagementMsg :=
  if sockOpen = false then (st, none)
  else
    let bufOut := st.bufStdout ++ stdout
    let bufErr := st.bufStderr ++ stderr
    if bufSizes.1 < (goStrLen bufOut : Int) ∨ bufSizes.2 < (goStrLen bufErr : Int) then
      ({ st with bufStdout := "", bufStderr := "" },
       some { cmdID := cmdID, sdk := st.sdk, progress := 0, exited := false,
              stdout := bufOut, stderr := bufErr })
    else
      ({ st with bufStdout := bufOut, bufStderr := bufErr }, none)

/-- The SDK record update of the exit callback (sdk.go lines 307-318):
code 0 and no process error give Installed with lastError cleared;
otherwise NotInstalled, with lastError first set to a message embedding
the exit code and then overwritten by the process error message when one
is present (the overwrite reproduces the source exactly). -/
def exitSdkUpdate (sdk : SDK) (code : Int) (exitError : Option String) : SDK :=
  if code = 0 ∧ exitError = none then
    { sdk with lastError := "", status := sdkStatusInstalled }
  else
    match exitError with
    | some m =>
      { sdk with lastError := ". Error: " ++ m, status := sdkStatusNotInstalled }
    | none =>
      { sdk with lastError := "Installation failed (code " ++ toString code ++ ")",
                 status := sdkStatusNotInstalled }

/-- The error string carried by the terminal event (sdk.go lines 320-326),
computed from the already-updated record. -/
def exitEmitErr (sdkUpdated : SDK) (exitError : Option String) : String :=
  let emitErr := match exitError with | some m => m | none => ""
  if emitErr = "" ∧ sdkUpdated.lastError ≠ "" then sdkUpdated.lastError else emitErr

/-- Embeds the ExitCB closure of Install (sdk.go lines 272-344). When the
socket lookup fails the callback returns at once: no flush, no record
update, and installCmd is not cleared. Otherwise it emits one pre-terminal
flush event when a buffer is non-empty, updates the record via
exitSdkUpdate, emits the terminal event, and clears installCmd. Returns
the new state and the list of emitted events, in emission order. -/
def installExitCB (sockOpen : Bool) (cmdID : String) (st : CrossSDKState)
    (code : Int) (exitError : Option String) :
    CrossSDKState × List SDKManagementMsg :=
  if sockOpen = false then (st, [])
  else
    let doFlush := 0 < goStrLen st.bufStderr ∨ 0 < goStrLen st.bufStdout
    let flushEvts : List SDKManagementMsg :=
      if doFlush then
        [{ cmdID := cmdID, sdk := st.sdk, progress := 50, exited := false,
           stdout := st.bufStdout, stderr := st.bufStderr }]
      else []
    let st1 : CrossSDKState :=
      if doFlush then { st with bufStdout := "", bufStderr := "" } else st
    let sdk1 := exitSdkUpdate st1.sdk code exitError
    let term : SDKManagementMsg :=
      { cmdID := cmdID, sdk := sdk1, progress := 100, exited := true,
        code := code, error := exitEmitErr sdk1 exitError }
    ({ st1 with sdk := sdk1, installCmd := none }, flushEvts ++ [term])

/-- The concatenation of the stdout parts of a sequence of output
chunks, each chunk being one (stdout, stderr) OutputCB invocation. -/
def concatStdout : List (String × String) → String
  | [] => ""
  | c :: rest => c.1 ++ concatStdout rest

/-- Runs the output callback over a sequence of chunks in order,
collecting the emitted non-terminal events. -/
def runOutputs (bufSizes : Int × Int) (sockOpen : Bool) (cmdID : String) :
    CrossSDKState → List (String × String) → CrossSDKState × List SDKManagementMsg
  | st, [] => (st, [])
  | st, c :: rest =>
    let p := outputCB bufSizes sockOpen cmdID st c.1 c.2
    let q := runOutputs bufSizes sockOpen cmdID p.1 rest
    (q.1, p.2.toList ++ q.2)

/-- Abort errors, named per the spec error taxonomy. -/
inductive AbortErr
  | noOperationInProgress
deriving Repr, DecidableEq

/-- Embeds CrossSDK.AbortInstallRemove (sdk.go lines 363-371): with no
held job handle it fails with no state change; otherwise it sets status to
NotInstalled and signals the job (signal delivery is external). -/
def abortInstallRemove (st : CrossSDKState) : CrossSDKState × Option AbortErr :=
  match st.installCmd with
  | none => (st, some AbortErr.noOperationInProgress)
  | some _ =>
    ({ st with sdk := { st.sdk with status := sdkStatusNotInstalled } }, none)

/-- Embeds CrossSDK.Remove (sdk.go lines 374-391). scriptErr models the
result of running the family remove script synchronously (none on
success). The source sets status to Uninstalling before running the
script and never writes any other status afterwards, on success or on
failure. -/
def remove (st : CrossSDKState) (scriptErr : Option String) :
    CrossSDKState × Option String :=
  if st.sdk.status ≠ sdkStatusInstalled then (st, some ("this sdk is not installed"))
  else
    let st1 : CrossSDKState :=
      { st with sdk := { st.sdk with status := sdkStatusUninstalling } }
    match scriptErr with
    | some m => (st1, some ("Error while uninstalling sdk: " ++ m))
    | none => (st1, none)

/-- The name fed to the uuid derivation (sdk.go lines 161-164): the stored
record name, or profile_arch_version when the name is empty. -/
def sdkUUIDName (sdk : SDK) : String :=
  if sdk.name = "" then sdk.profile ++ "_" ++ sdk.arch ++ "_" ++ sdk.version
  else sdk.name

/-- The id derivation of sdk.go line 165: uuid.NewV3 applied to the fixed
namespace constant FromStringOrNil("sdks") and sdkUUIDName. The external
uuid library function is deterministic (a V3 uuid is an MD5 of namespace
and name); it is passed in as the hash parameter so that the results below
hold for any deterministic hash. -/
def computeID (hash : String → String → String) (sdk : SDK) : String :=
  hash ("sdks") (sdkUUIDName sdk)

/-- Embeds NewCrossSDK (sdk.go lines 88-170) from the point where the
family configuration and scripts have been loaded (lines 95-128 are prior
failure paths that do not touch the record fields handled here). The Go
parameter sdk is passed by value and a copy is stored into s.sdk by the
struct literal at lines 89-93 BEFORE the default-field writes at lines
130-134; those writes and the sanity checks therefore act on the local
parameter copy (sdkArg below), while the returned record is the stored
copy (stored below), to which only the id is ever written (line 165).
fileExists models common.Exists; hash models the uuid derivation. -/
def newCrossSDK (fileExists : String → Bool) (hash : String → String → String)
    (sdkIn : SDK) : Except String SDK :=
  let stored : SDK := sdkIn
  let sdkArg : SDK := { sdkIn with lastError := "" }
  let sdkArg : SDK :=
    if sdkArg.status = "" then { sdkArg with status := sdkStatusNotInstalled } else sdkArg
  if sdkArg.name = "" then
    Except.error ("Invalid SDK definition (name not set)")
  else if sdkArg.profile = "" then
    Except.error ("Invalid SDK definition (profile not set)")
  else if sdkArg.version = "" then
    Except.error ("Invalid SDK definition (version not set)")
  else if sdkArg.arch = "" then
    Except.error ("Invalid SDK definition (arch not set)")
  else if sdkArg.status = sdkStatusInstalled ∧ sdkArg.setupFile = "" then
    Except.error ("Invalid SDK definition (setupFile not set)")
  else if sdkArg.status = sdkStatusInstalled ∧ fileExists sdkArg.setupFile = false then
    Except.error ("Invalid SDK definition (setupFile not accessible)")
  else if sdkArg.status = sdkStatusInstalled ∧ sdkArg.path = "" then
    Except.error ("Invalid SDK definition (path not set)")
  else if sdkArg.status = sdkStatusInstalled ∧ fileExists sdkArg.path = false then
    Except.error ("Invalid SDK definition (path not accessible)")
  else
    Except.ok { stored with id := computeID hash stored }

/-! Catalog reconciler: scripts/sdks/agl/db-dump. -/

/-- One SDK object of the db-dump script: the JSON entries of the catalog
database file and the objects it synthesizes. The data field models the
stray property written by the match branch of the discovery loop (an
absent property is the empty string). -/
structure JsSdk where
  name : String := ""
  description : String := ""
  profile : String := ""
  version : String := ""
  arch : String := ""
  path : String := ""
  url : String := ""
  status : String := ""
  date : String := ""
  size : String := ""
  md5sum : String := ""
  setupFile : String := ""
  data : String := ""
deriving Repr, DecidableEq

/-- One discovered local install, as the db-dump loop derives it from a
found environment-setup file (db-dump lines 65-95): the positional path
segments profile/version/arch, the containing directory, the file itself,
and the already-formatted timestamp of the sibling version-* file. -/
structure Discovery where
  profile : String := ""
  version : String := ""
  arch : String := ""
  dir : String := ""
  envFile : String := ""
  sdkDate : String := ""
deriving Repr, DecidableEq

/-- JS s.substring(a, b) for a ≤ b (both clamped to the string length). -/
def jsSubstring (s : String) (a b : Nat) : String := (s.drop a).take (b - a)

/-- The timestamp normalization of db-dump lines 91-95: from the raw
version-* grep output (YYYYMMDDhhmm plus trailing newline) to
"YYYY-MM-DD hh:mm"; the date stays blank when the output is empty. -/
def sdkDateOf (d : String) : String :=
  if d = "" then ""
  else jsSubstring d 0 4 ++ "-" ++ jsSubstring d 4 6 ++ "-" ++ jsSubstring d 6 8
    ++ " " ++ jsSubstring d 8 10 ++ ":" ++ jsSubstring d 10 12

/-- The match test of db-dump line 100: equality of the logical key
(profile, version, arch) between a discovery and a catalog entry. -/
def discMatch (d : Discovery) (s : JsSdk) : Bool :=
  d.profile == s.profile && d.version == s.version && d.arch == s.arch

/-- The skip guard of db-dump line 73: a discovery with an empty profile,
version, arch or directory is ignored. -/
def guardSkip (d : Discovery) : Bool :=
  d.profile == "" || d.version == "" || d.arch == "" || d.dir == ""

/-- The match-branch update of db-dump lines 103-106: fills path, sets
status Installed, writes the formatted date into the data property (the
source assigns sdk.data, not sdk.date) and fills setupFile. -/
def applyMatch (d : Discovery) (s : JsSdk) : JsSdk :=
  { s with path := d.dir, status := "Installed", data := d.sdkDate,
           setupFile := d.envFile }

/-- The synthesized local-only entry of db-dump lines 112-125. -/
def synthSdk (d : Discovery) : JsSdk :=
  { name := d.profile ++ "-" ++ d.arch ++ "-" ++ d.version,
    description := "AGL SDK " ++ d.arch ++ " (version " ++ d.version ++ ")",
    profile := d.profile, version := d.version, arch := d.arch,
    path := d.dir, url := "", status := "Installed", date := d.sdkDate,
    size := "", md5sum := "", setupFile := d.envFile, data := "" }

/-- One iteration of the discovery loop body (db-dump lines 97-127) on the
current entry list: skip when the guard fires; otherwise update every
matching entry in place and, when none matched, append the synthesized
entry. The inner forEach updates all matches and cannot change any key
field, so computing the found flag beforehand is equivalent to the source
setting it during the pass. -/
def processDiscovery (sdks : List JsSdk) (d : Discovery) : List JsSdk :=
  if guardSkip d then sdks
  else if sdks.any (fun s => discMatch d s) then
    sdks.map (fun s => if discMatch d s then applyMatch d s else s)
  else
    sdks.map (fun s => if discMatch d s then applyMatch d s else s) ++ [synthSdk d]

/-- The default-status initialization of db-dump lines 53-55. -/
def initStatus (s : JsSdk) : JsSdk := { s with status := "Not Installed" }

/-- The whole reconciliation of db-dump: set every catalog entry to
Not Installed, then run the discovery loop over every discovered local
install in filesystem-scan order. -/
def dbDump (catalog : List JsSdk) (installs : List Discovery) : List JsSdk :=
  installs.foldl processDiscovery (catalog.map initStatus)

/-! Concrete records used by the evaluation and witness theorems. -/

/-- A catalog entry as db-dump reads it from sdks_latest.json. -/
def sampleCatalogEntry : JsSdk :=
  { name := "AGL-release-dab-4.0.2-aarch64", profile := "agl", version := "4.0.2",
    arch := "aarch64", url := "http://example.invalid/sdk.sh",
    date := "2017-12-01 10:00", size := "350M", md5sum := "abc123" }

/-- A discovered local install matching no catalog entry. -/
def sampleDiscovery : Discovery :=
  { profile := "qemu", version := "8.0.0", arch := "x86_64",
    dir := "/xdt/sdk/qemu/8.0.0/x86_64",
    envFile := "/xdt/sdk/qemu/8.0.0/x86_64/environment-setup-corei7-64",
    sdkDate := "2024-01-15 12:30" }

/-- A discovered local install matching sampleCatalogEntry by key. -/
def sampleMatchDiscovery : Discovery :=
  { profile := "agl", version := "4.0.2", arch := "aarch64",
    dir := "/xdt/sdk/agl/4.0.2/aarch64",
    envFile := "/xdt/sdk/agl/4.0.2/aarch64/environment-setup-aarch64",
    sdkDate := sdkDateOf ("202401151230\n") }

/-- A CrossSDK state mid-install: job handle held, buffered stdout. -/
def sampleInstallingState : CrossSDKState :=
  { sdk := { name := "AGL-release-dab-4.0.2-aarch64", status := sdkStatusInstalling,
             lastError := "" },
    installCmd := some { cmdID := "sdk-install-1", args := [], cmdExecTimeout := 1800 },
    bufStdout := "step 1 done\n", bufStderr := "" }

/-! Theorems. -/

/-- Byte length of a concatenation is the sum of byte lengths. -/
theorem goStrLen_append (a b : String) : goStrLen (a ++ b) = goStrLen a + goStrLen b := by
  simp [goStrLen, String.data_append]

/-- C1: the claim asserts that after the install exit callback runs, the
record is updated (Installed or NotInstalled with a message) and the job
handle is cleared, regardless of transport-session reachability. The code
refutes this: when the socket lookup fails, ExitCB (sdk.go lines 283-287)
returns before the record update and before clearing installCmd, so a job
that exited successfully leaves status Installing, the stale buffered
output in place, and the handle held. This theorem evaluates the embedded
callback at such an input. -/
theorem C1_exit_disconnected_eval :
    installExitCB false ("sdk-install-1") sampleInstallingState 0 none
      = (sampleInstallingState, [])
    ∧ sampleInstallingState.sdk.status = sdkStatusInstalling
    ∧ sdkStatusInstalling ≠ sdkStatusInstalled
    ∧ sampleInstallingState.installCmd ≠ none
    ∧ sampleInstallingState.bufStdout ≠ "" :=
  ⟨rfl, rfl, by decide, by decide, by decide⟩

/-- C2: the claim asserts that a successful Remove leaves status
NotInstalled. The code refutes this: Remove (sdk.go lines 374-391) sets
Uninstalling before running the script and never writes any status
afterwards, so on script success it returns nil with status still
Uninstalling. This theorem evaluates the embedded Remove on an installed
SDK whose remove script succeeds. -/
theorem C2_remove_success_eval :
    remove { sdk := { status := sdkStatusInstalled, path := "/xdt/sdk/agl/4.0.2/aarch64" } } none
      = ({ sdk := { status := sdkStatusUninstalling, path := "/xdt/sdk/agl/4.0.2/aarch64" } },
         none)
    ∧ sdkStatusUninstalling ≠ sdkStatusNotInstalled :=
  ⟨rfl, by decide⟩

/-- C3: the claim asserts that when the background job cannot start,
Install returns the spawn error with status reverted to NotInstalled. The
code refutes the revert: Install (sdk.go lines 354-359) sets Installing
and then returns the error of Start() without touching status, so a failed
spawn leaves the record Installing (and the handle held). This theorem
evaluates the embedded Install at a spawn failure. -/
theorem C3_spawn_failure_eval :
    install { sdk := { status := sdkStatusNotInstalled } } ("/tmp/sdk.sh") false 0 1
        (fun _ => none) (some ("fork failed"))
      = ({ sdk := { status := sdkStatusInstalling, lastError := "" },
           installCmd := some { cmdID := "sdk-install-1",
                                args := ["--file", "/tmp/sdk.sh"], cmdExecTimeout := 1800 },
           bufStdout := "", bufStderr := "" },
         some (10, 2000), some (InstallErr.spawn ("fork failed")))
    ∧ sdkStatusInstalling ≠ sdkStatusNotInstalled :=
  ⟨rfl, by decide⟩

/-- C4: the claim asserts that the stored managed record of an accepted
SDK has lastError reset to empty and an unset status defaulted to
NotInstalled. The code refutes this: NewCrossSDK stores a copy of the
by-value parameter into s.sdk (sdk.go lines 89-93) before the writes at
lines 130-134, which therefore hit only the dead parameter copy; the
stored record keeps the incoming lastError and empty status. This theorem
evaluates the embedded constructor on such a record: it is accepted, yet
the returned record keeps lastError and the empty status. -/
theorem C4_stored_record_eval :
    newCrossSDK (fun _ => true) (fun ns nm => ns ++ (":") ++ nm)
        { name := "AGL-release-dab-4.0.2-aarch64", profile := "agl", version := "4.0.2",
          arch := "aarch64", status := "", lastError := "previous install failed" }
      = Except.ok { id := "sdks:AGL-release-dab-4.0.2-aarch64",
                    name := "AGL-release-dab-4.0.2-aarch64", profile := "agl",
                    version := "4.0.2", arch := "aarch64", status := "",
                    lastError := "previous install failed" }
    ∧ ("" : String) ≠ sdkStatusNotInstalled
    ∧ ("previous install failed" : String) ≠ "" :=
  ⟨rfl, by decide, by decide⟩

/-- C5: the identity derivation is deterministic. Two records with the
same non-empty name, or both with empty names and the same
profile/arch/version triple, receive the same id, for every deterministic
hash standing in for the external uuid.NewV3 — so the id depends on
nothing but the fixed namespace and the derived name, and is stable
across calls and restarts. -/
theorem C5_identity_deterministic (hash : String → String → String) (r1 r2 : SDK)
    (hkey : (r1.name = r2.name ∧ r1.name ≠ "")
      ∨ (r1.name = "" ∧ r2.name = "" ∧ r1.profile = r2.profile ∧ r1.arch = r2.arch
          ∧ r1.version = r2.version)) :
    computeID hash r1 = computeID hash r2 := by
  unfold computeID sdkUUIDName
  rcases hkey with ⟨hn, hne⟩ | ⟨h1, h2, hp, ha, hv⟩
  · have hne2 : r2.name ≠ "" := hn ▸ hne
    rw [if_neg hne, if_neg hne2, hn]
  · rw [if_pos h1, if_pos h2, hp, ha, hv]

/-- C5 witness: two concrete records sharing the name "AGL-corei7-64"
receive the same id under a concrete hash. -/
theorem C5_identity_deterministic_witness :
    computeID (fun ns nm => ns ++ (":") ++ nm) { name := "AGL-corei7-64" }
      = computeID (fun ns nm => ns ++ (":") ++ nm)
          { name := "AGL-corei7-64", url := "http://mirror.invalid/sdk.sh" } :=
  C5_identity_deterministic _ _ _ (Or.inl ⟨rfl, by decide⟩)

/-- C8: precondition violations are rejected synchronously with no state
change: Install on an Installed SDK fails with AlreadyInstalled, Install
during Installing fails with InstallInProgress, AbortInstallRemove with no
held job handle fails with NoOperationInProgress, and in each case the
full CrossSDK state (record, lastError, buffers, job handle) is returned
unchanged. -/
theorem C8_precondition_rejections (st : CrossSDKState) (file : String) (force : Bool)
    (timeout : Int) (n : Nat) (env : String → Option String) (spawnErr : Option String) :
    (st.sdk.status = sdkStatusInstalled →
      install st file force timeout n env spawnErr
        = (st, none, some InstallErr.alreadyInstalled))
    ∧ (st.sdk.status = sdkStatusInstalling →
      install st file force timeout n env spawnErr
        = (st, none, some InstallErr.installInProgress))
    ∧ (st.installCmd = none →
      abortInstallRemove st = (st, some AbortErr.noOperationInProgress)) := by
  refine ⟨fun h => ?_, fun h => ?_, fun h => ?_⟩
  · simp [install, h]
  · have hne : sdkStatusInstalling ≠ sdkStatusInstalled := by decide
    simp [install, h, hne]
  · simp [abortInstallRemove, h]

/-- C8 witness: the three rejections evaluated at concrete states. -/
theorem C8_precondition_rejections_witness :
    install { sdk := { status := sdkStatusInstalled } } "" false 0 1 (fun _ => none) none
      = ({ sdk := { status := sdkStatusInstalled } }, none, some InstallErr.alreadyInstalled)
    ∧ install { sdk := { status := sdkStatusInstalling } } "" false 0 1 (fun _ => none) none
      = ({ sdk := { status := sdkStatusInstalling } }, none, some InstallErr.installInProgress)
    ∧ abortInstallRemove {} = ({}, some AbortErr.noOperationInProgress) :=
  ⟨(C8_precondition_rejections _ "" false 0 1 (fun _ => none) none).1 rfl,
   (C8_precondition_rejections _ "" false 0 1 (fun _ => none) none).2.1 rfl,
   (C8_precondition_rejections {} "" false 0 1 (fun _ => none) none).2.2 rfl⟩

/-- When neither buffer crosses its threshold after appending a chunk, the
output callback only accumulates and emits nothing. -/
theorem outputCB_no_emit (bufSizes : Int × Int) (cmdID : String) (st : CrossSDKState)
    (stdout stderr : String)
    (h : ¬ (bufSizes.1 < (goStrLen (st.bufStdout ++ stdout) : Int)
          ∨ bufSizes.2 < (goStrLen (st.bufStderr ++ stderr) : Int))) :
    outputCB bufSizes true cmdID st stdout stderr
      = ({ st with
            bufStdout := st.bufStdout ++ stdout,
            bufStderr := st.bufStderr ++ stderr }, none) := by
  simp [outputCB, h]

/-- Running the output callback over chunks with no stderr, whose total
stdout (on top of the current buffer) stays at or below the stdout
threshold, emits nothing and only accumulates the stdout into the buffer
(the stderr threshold being non-negative, as a size is). -/
theorem runOutputs_quiet (nOut mErr : Int) (cmdID : String)
    (chunks : List (String × String)) :
    ∀ st : CrossSDKState,
    st.bufStderr = "" →
    (∀ c ∈ chunks, c.2 = "") →
    ((goStrLen st.bufStdout : Int) + goStrLen (concatStdout chunks) ≤ nOut) →
    0 ≤ mErr →
    runOutputs (nOut, mErr) true cmdID st chunks
      = ({ st with bufStdout := st.bufStdout ++ concatStdout chunks }, []) := by
  induction chunks with
  | nil =>
    intro st h1 _ _ _
    simp only [runOutputs, concatStdout, String.append_empty]
  | cons c rest ih =>
    intro st h1 hall hsize hm
    have hc2 : c.2 = "" := hall c (List.mem_cons_self c rest)
    have hrest : ∀ x ∈ rest, x.2 = "" := fun x hx => hall x (List.mem_cons_of_mem c hx)
    have hcat : concatStdout (c :: rest) = c.1 ++ concatStdout rest := rfl
    rw [hcat, goStrLen_append] at hsize
    push_cast at hsize
    have hnoemit : ¬ (nOut < (goStrLen (st.bufStdout ++ c.1) : Int)
        ∨ mErr < (goStrLen (st.bufStderr ++ c.2) : Int)) := by
      rw [h1, hc2]
      have hz : goStrLen ("" ++ "") = 0 := rfl
      rw [goStrLen_append, hz]
      push_cast
      omega
    have hstep := outputCB_no_emit (nOut, mErr) cmdID st c.1 c.2 hnoemit
    have hihsize : (goStrLen ((st.bufStdout ++ c.1)) : Int)
        + goStrLen (concatStdout rest) ≤ nOut := by
      rw [goStrLen_append]
      push_cast
      omega
    have hrec := ih { st with
                       bufStdout := st.bufStdout ++ c.1,
                       bufStderr := st.bufStderr ++ c.2 }
      (by simp [h1, hc2]) hrest (by simpa using hihsize) hm
    simp only [runOutputs, hstep, hrec, hcat, Option.toList_none, List.nil_append]
    rw [String.append_assoc, hc2, String.append_empty]

/-- C9: a job whose total stdout stays at or below the stdout threshold
and which writes no stderr triggers no non-terminal event from the output
callback; its whole stdout is still delivered, because the exit callback
(reached with the session socket still open) flushes the accumulated
buffer as exactly one pre-terminal progress event (exited false, progress
50) before the terminal event, or goes straight to the terminal event when
nothing was buffered. Starting state: fresh job buffers (both empty, as
Install zeroes them); the stderr threshold is non-negative, as a size
is. -/
theorem C9_small_output_flushed (nOut mErr code : Int) (cmdID : String)
    (st : CrossSDKState) (chunks : List (String × String))
    (hout : st.bufStdout = "") (herr : st.bufStderr = "")
    (hchunks : ∀ c ∈ chunks, c.2 = "")
    (hsize : (goStrLen (concatStdout chunks) : Int) ≤ nOut)
    (hm : 0 ≤ mErr) :
    (runOutputs (nOut, mErr) true cmdID st chunks).2 = []
    ∧ (runOutputs (nOut, mErr) true cmdID st chunks).1
        = { st with bufStdout := concatStdout chunks }
    ∧ (installExitCB true cmdID (runOutputs (nOut, mErr) true cmdID st chunks).1
          code none).2
      = (if 0 < goStrLen (concatStdout chunks) then
          [{ cmdID := cmdID, sdk := st.sdk, progress := 50, exited := false,
             stdout := concatStdout chunks, stderr := "" }]
         else [])
        ++ [{ cmdID := cmdID, sdk := exitSdkUpdate st.sdk code none, progress := 100,
              exited := true, code := code,
              error := exitEmitErr (exitSdkUpdate st.sdk code none) none }] := by
  have hrun := runOutputs_quiet nOut mErr cmdID chunks st herr hchunks
    (by rw [hout]; simpa [goStrLen] using hsize) hm
  have hacc : st.bufStdout ++ concatStdout chunks = concatStdout chunks := by
    rw [hout]
    exact rfl
  rw [hacc] at hrun
  refine ⟨by rw [hrun], by rw [hrun], ?_⟩
  rw [hrun]
  by_cases hpos : 0 < goStrLen (concatStdout chunks)
  · simp only [installExitCB, herr, if_pos hpos]
    have hzero : goStrLen ("" : String) = 0 := rfl
    simp [herr, hpos, hzero]
  · simp only [installExitCB, herr]
    have hzero : goStrLen ("" : String) = 0 := rfl
    simp [herr, hpos, hzero]

/-- C9 witness: with the default thresholds (10, 2000), a job emitting the
single 3-byte stdout chunk "ok\n" and exiting 0 produces no non-terminal
event, and the exit callback emits the flush event carrying "ok\n"
followed by the terminal event. -/
theorem C9_small_output_flushed_witness :
    (runOutputs (10, 2000) true ("sdk-install-1") {} [("ok\n", "")]).2 = []
    ∧ (runOutputs (10, 2000) true ("sdk-install-1") {} [("ok\n", "")]).1
        = { bufStdout := "ok\n" }
    ∧ (installExitCB true ("sdk-install-1")
          (runOutputs (10, 2000) true ("sdk-install-1") {} [("ok\n", "")]).1 0 none).2
      = [{ cmdID := "sdk-install-1", sdk := {}, progress := 50, exited := false,
           stdout := "ok\n", stderr := "" },
         { cmdID := "sdk-install-1", sdk := exitSdkUpdate {} 0 none, progress := 100,
           exited := true, code := 0,
           error := exitEmitErr (exitSdkUpdate {} 0 none) none }] := by
  have h := C9_small_output_flushed 10 2000 0 ("sdk-install-1") {} [("ok\n", "")]
    rfl rfl (by decide) (by decide) (by decide)
  refine ⟨h.1, h.2.1, ?_⟩
  rw [h.2.2]
  decide

/-- A discovery that passes the guard has all four derived components
non-empty. -/
theorem guardSkip_false (d : Discovery) (h : guardSkip d = false) :
    d.profile ≠ "" ∧ d.version ≠ "" ∧ d.arch ≠ "" ∧ d.dir ≠ "" := by
  simp [guardSkip] at h
  exact ⟨h.1.1.1, h.1.1.2, h.1.2, h.2⟩

/-- A match gives equality of the three key components. -/
theorem discMatch_eq (d : Discovery) (s : JsSdk) (h : discMatch d s = true) :
    d.profile = s.profile ∧ d.version = s.version ∧ d.arch = s.arch := by
  simp [discMatch] at h
  exact ⟨h.1.1, h.1.2, h.2⟩

/-- One discovery step, seen at a fixed index: the entry there is either
left alone or, when the discovery passes the guard and matches it,
replaced by its applyMatch update. -/
theorem processDiscovery_index (sdks : List JsSdk) (d : Discovery) (i : Nat) (s : JsSdk)
    (h : sdks[i]? = some s) :
    (processDiscovery sdks d)[i]? = some s
    ∨ (guardSkip d = false ∧ discMatch d s = true
        ∧ (processDiscovery sdks d)[i]? = some (applyMatch d s)) := by
  have hlen : i < sdks.length := by
    by_contra hle
    rw [List.getElem?_eq_none (Nat.le_of_not_lt hle)] at h
    exact Option.noConfusion h
  cases hg : guardSkip d with
  | true =>
    left
    simpa [processDiscovery, hg] using h
  | false =>
    have hmap : (sdks.map (fun t => if discMatch d t then applyMatch d t else t))[i]?
        = some (if discMatch d s then applyMatch d s else s) := by
      rw [List.getElem?_map, h]
      rfl
    have hres : (processDiscovery sdks d)[i]?
        = (sdks.map (fun t => if discMatch d t then applyMatch d t else t))[i]? := by
      cases hf : sdks.any (fun s => discMatch d s) with
      | true => simp [processDiscovery, hg, hf]
      | false =>
        simp only [processDiscovery, hg, hf, Bool.false_eq_true, if_false]
        rw [List.getElem?_append_left (by rw [List.length_map]; exact hlen)]
    cases hd : discMatch d s with
    | true =>
      right
      exact ⟨rfl, rfl, by rw [hres, hmap, if_pos hd]⟩
    | false =>
      left
      rw [hres, hmap, if_neg (by rw [hd]; exact Bool.noConfusion)]

/-- An entry matched by no discovery of the whole scan is never touched by
the fold. -/
theorem foldl_untouched (installs : List Discovery) :
    ∀ (sdks : List JsSdk) (i : Nat) (s : JsSdk),
    sdks[i]? = some s →
    (∀ d ∈ installs, discMatch d s = false) →
    (installs.foldl processDiscovery sdks)[i]? = some s := by
  induction installs with
  | nil => intro sdks i s h _; simpa using h
  | cons d rest ih =>
    intro sdks i s h hall
    rw [List.foldl_cons]
    rcases processDiscovery_index sdks d i s h with h1 | ⟨_, hm, _⟩
    · exact ih _ i s h1 (fun x hx => hall x (List.mem_cons_of_mem d hx))
    · rw [hall d (List.mem_cons_self d rest)] at hm
      exact Bool.noConfusion hm

/-- The fold preserves, at every index, the name and the logical key of
the entry that was there: matches only rewrite path, status, data and
setupFile. -/
theorem foldl_key_preserved (installs : List Discovery) :
    ∀ (sdks : List JsSdk) (i : Nat) (s : JsSdk),
    sdks[i]? = some s →
    ∃ s2, (installs.foldl processDiscovery sdks)[i]? = some s2
      ∧ s2.name = s.name ∧ s2.profile = s.profile ∧ s2.version = s.version
      ∧ s2.arch = s.arch := by
  induction installs with
  | nil => intro sdks i s h; exact ⟨s, by simpa using h, rfl, rfl, rfl, rfl⟩
  | cons d rest ih =>
    intro sdks i s h
    rw [List.foldl_cons]
    rcases processDiscovery_index sdks d i s h with h1 | ⟨_, _, h1⟩
    · exact ih _ i s h1
    · exact ih _ i (applyMatch d s) h1

/-- Shape invariant: every entry of the working list either carries the
logical key of some catalog entry, or is named profile-arch-version from
its own key (the shape of synthesized entries). One discovery step
preserves it. -/
theorem processDiscovery_shape (catalog sdks : List JsSdk) (d : Discovery)
    (h : ∀ s ∈ sdks,
      (∃ c ∈ catalog, c.profile = s.profile ∧ c.version = s.version ∧ c.arch = s.arch)
      ∨ s.name = s.profile ++ "-" ++ s.arch ++ "-" ++ s.version) :
    ∀ s ∈ processDiscovery sdks d,
      (∃ c ∈ catalog, c.profile = s.profile ∧ c.version = s.version ∧ c.arch = s.arch)
      ∨ s.name = s.profile ++ "-" ++ s.arch ++ "-" ++ s.version := by
  intro s hs
  cases hg : guardSkip d with
  | true =>
    rw [processDiscovery, if_pos (by rw [hg])] at hs
    exact h s hs
  | false =>
    have hmap : ∀ t ∈ sdks.map (fun t => if discMatch d t then applyMatch d t else t),
        (∃ c ∈ catalog, c.profile = t.profile ∧ c.version = t.version ∧ c.arch = t.arch)
        ∨ t.name = t.profile ++ "-" ++ t.arch ++ "-" ++ t.version := by
      intro t ht
      obtain ⟨a, ha, rfl⟩ := List.mem_map.mp ht
      cases hd : discMatch d a with
      | true => simpa [hd, applyMatch] using h a ha
      | false => simpa [hd] using h a ha
    rw [processDiscovery, if_neg (by rw [hg]; exact Bool.noConfusion)] at hs
    cases hf : sdks.any (fun s => discMatch d s) with
    | true =>
      rw [if_pos (by rw [hf])] at hs
      exact hmap s hs
    | false =>
      rw [if_neg (by rw [hf]; exact Bool.noConfusion)] at hs
      rcases List.mem_append.mp hs with hs1 | hs1
      · exact hmap s hs1
      · rw [List.mem_singleton.mp hs1]
        right
        rfl

/-- The shape invariant survives the whole fold. -/
theorem foldl_shape (catalog : List JsSdk) (installs : List Discovery) :
    ∀ sdks : List JsSdk,
    (∀ s ∈ sdks,
      (∃ c ∈ catalog, c.profile = s.profile ∧ c.version = s.version ∧ c.arch = s.arch)
      ∨ s.name = s.profile ++ "-" ++ s.arch ++ "-" ++ s.version) →
    ∀ s ∈ installs.foldl processDiscovery sdks,
      (∃ c ∈ catalog, c.profile = s.profile ∧ c.version = s.version ∧ c.arch = s.arch)
      ∨ s.name = s.profile ++ "-" ++ s.arch ++ "-" ++ s.version := by
  induction installs with
  | nil => intro sdks h; simpa using h
  | cons d rest ih =>
    intro sdks h
    rw [List.foldl_cons]
    exact ih _ (processDiscovery_shape catalog sdks d h)

/-- A guard-passing discovery whose key matches no catalog entry leaves,
after its own step, an entry named profile-arch-version with status
Installed and a non-empty path: either its synthesized entry, or the
update of an earlier synthesized entry with the same key. -/
theorem processDiscovery_creates (catalog sdks : List JsSdk) (d : Discovery)
    (hg : guardSkip d = false)
    (hnocat : ∀ c ∈ catalog, discMatch d c = false)
    (hshape : ∀ s ∈ sdks,
      (∃ c ∈ catalog, c.profile = s.profile ∧ c.version = s.version ∧ c.arch = s.arch)
      ∨ s.name = s.profile ++ "-" ++ s.arch ++ "-" ++ s.version) :
    ∃ s ∈ processDiscovery sdks d,
      s.name = d.profile ++ "-" ++ d.arch ++ "-" ++ d.version
      ∧ s.status = "Installed" ∧ s.path ≠ "" := by
  obtain ⟨_, _, _, hdir⟩ := guardSkip_false d hg
  cases hf : sdks.any (fun s => discMatch d s) with
  | true =>
    obtain ⟨s0, hs0mem, hs0match⟩ := List.any_eq_true.mp hf
    obtain ⟨hp, hv, ha⟩ := discMatch_eq d s0 hs0match
    have hform : s0.name = s0.profile ++ "-" ++ s0.arch ++ "-" ++ s0.version := by
      rcases hshape s0 hs0mem with ⟨c, hc, hcp, hcv, hca⟩ | hform
      · exfalso
        have hmc : discMatch d c = true := by
          simp only [discMatch, Bool.and_eq_true, beq_iff_eq]
          exact ⟨⟨hp.trans hcp.symm, hv.trans hcv.symm⟩, ha.trans hca.symm⟩
        rw [hnocat c hc] at hmc
        exact Bool.noConfusion hmc
      · exact hform
    refine ⟨applyMatch d s0, ?_, ?_, rfl, hdir⟩
    · rw [processDiscovery, if_neg (by rw [hg]; exact Bool.noConfusion), if_pos (by rw [hf])]
      exact List.mem_map.mpr ⟨s0, hs0mem, by rw [if_pos hs0match]⟩
    · show s0.name = _
      rw [hform, hp, hv, ha]
  | false =>
    refine ⟨synthSdk d, ?_, rfl, rfl, hdir⟩
    rw [processDiscovery, if_neg (by rw [hg]; exact Bool.noConfusion),
        if_neg (by rw [hf]; exact Bool.noConfusion)]
    exact List.mem_append.mpr (Or.inr (List.mem_singleton.mpr rfl))

/-- Once an entry with a given name, status Installed and a non-empty
path exists, every further discovery step keeps such an entry (updates
preserve the name, keep status Installed and write a non-empty path). -/
theorem processDiscovery_keeps (sdks : List JsSdk) (d : Discovery) (nm : String)
    (h : ∃ s ∈ sdks, s.name = nm ∧ s.status = "Installed" ∧ s.path ≠ "") :
    ∃ s ∈ processDiscovery sdks d, s.name = nm ∧ s.status = "Installed" ∧ s.path ≠ "" := by
  obtain ⟨s0, hmem, hname, hstat, hpath⟩ := h
  cases hg : guardSkip d with
  | true =>
    exact ⟨s0, by rw [processDiscovery, if_pos (by rw [hg])]; exact hmem,
           hname, hstat, hpath⟩
  | false =>
    obtain ⟨_, _, _, hdir⟩ := guardSkip_false d hg
    have key : ∃ t, t ∈ sdks.map (fun t => if discMatch d t then applyMatch d t else t)
        ∧ t.name = nm ∧ t.status = "Installed" ∧ t.path ≠ "" := by
      cases hd : discMatch d s0 with
      | true =>
        refine ⟨applyMatch d s0, List.mem_map.mpr ⟨s0, hmem, by simp [hd]⟩, ?_, rfl, hdir⟩
        show s0.name = nm
        exact hname
      | false =>
        exact ⟨s0, List.mem_map.mpr ⟨s0, hmem, by simp [hd]⟩, hname, hstat, hpath⟩
    obtain ⟨t, htmem, htprops⟩ := key
    cases hf : sdks.any (fun s => discMatch d s) with
    | true =>
      refine ⟨t, ?_, htprops⟩
      rw [processDiscovery, if_neg (by rw [hg]; exact Bool.noConfusion), if_pos (by rw [hf])]
      exact htmem
    | false =>
      refine ⟨t, ?_, htprops⟩
      rw [processDiscovery, if_neg (by rw [hg]; exact Bool.noConfusion),
          if_neg (by rw [hf]; exact Bool.noConfusion)]
      exact List.mem_append.mpr (Or.inl htmem)

/-- The kept-entry property survives the rest of the fold. -/
theorem foldl_keeps (installs : List Discovery) (nm : String) :
    ∀ sdks : List JsSdk,
    (∃ s ∈ sdks, s.name = nm ∧ s.status = "Installed" ∧ s.path ≠ "") →
    ∃ s ∈ installs.foldl processDiscovery sdks,
      s.name = nm ∧ s.status = "Installed" ∧ s.path ≠ "" := by
  induction installs with
  | nil => intro sdks h; simpa using h
  | cons d rest ih =>
    intro sdks h
    rw [List.foldl_cons]
    exact ih _ (processDiscovery_keeps sdks d nm h)

/-- Entries at or beyond a fixed bound that already look synthesized
(status Installed, non-empty path, name built from the key) keep looking
so across one discovery step, and the step only ever appends entries of
that shape. -/
theorem processDiscovery_tail (k : Nat) (sdks : List JsSdk) (d : Discovery)
    (h : ∀ j s, k ≤ j → sdks[j]? = some s →
      s.status = "Installed" ∧ s.path ≠ ""
        ∧ s.name = s.profile ++ "-" ++ s.arch ++ "-" ++ s.version) :
    ∀ j s, k ≤ j → (processDiscovery sdks d)[j]? = some s →
      s.status = "Installed" ∧ s.path ≠ ""
        ∧ s.name = s.profile ++ "-" ++ s.arch ++ "-" ++ s.version := by
  intro j s hkj hj
  cases hg : guardSkip d with
  | true =>
    rw [processDiscovery, if_pos (by rw [hg])] at hj
    exact h j s hkj hj
  | false =>
    obtain ⟨_, _, _, hdir⟩ := guardSkip_false d hg
    have hmap : ∀ t, (sdks.map (fun t => if discMatch d t then applyMatch d t else t))[j]?
        = some t →
        t.status = "Installed" ∧ t.path ≠ ""
          ∧ t.name = t.profile ++ "-" ++ t.arch ++ "-" ++ t.version := by
      intro t ht
      rw [List.getElem?_map] at ht
      cases h0 : sdks[j]? with
      | none => rw [h0] at ht; exact Option.noConfusion ht
      | some s0 =>
        rw [h0] at ht
        obtain ⟨hstat, hpath, hform⟩ := h j s0 hkj h0
        have ht2 : t = if discMatch d s0 then applyMatch d s0 else s0 :=
          (Option.some.injEq _ _ ▸ ht).symm
        cases hd : discMatch d s0 with
        | true =>
          rw [ht2, if_pos (by rw [hd])]
          exact ⟨rfl, hdir, by show s0.name = _; exact hform⟩
        | false =>
          rw [ht2, if_neg (by rw [hd]; exact Bool.noConfusion)]
          exact ⟨hstat, hpath, hform⟩
    rw [processDiscovery, if_neg (by rw [hg]; exact Bool.noConfusion)] at hj
    cases hf : sdks.any (fun s => discMatch d s) with
    | true =>
      rw [if_pos (by rw [hf])] at hj
      exact hmap s hj
    | false =>
      rw [if_neg (by rw [hf]; exact Bool.noConfusion)] at hj
      by_cases hjlt : j < (sdks.map (fun t => if discMatch d t then applyMatch d t else t)).length
      · rw [List.getElem?_append_left hjlt] at hj
        exact hmap s hj
      · rw [List.getElem?_append_right (Nat.le_of_not_lt hjlt)] at hj
        have hj0 : s = synthSdk d := by
          rcases hd0 : j - (sdks.map
              (fun t => if discMatch d t then applyMatch d t else t)).length with _ | n
          · rw [hd0] at hj
            simpa using hj.symm
          · rw [hd0] at hj
            simp at hj
        rw [hj0]
        exact ⟨rfl, hdir, rfl⟩

/-- The synthesized-shape property of all tail positions survives the
whole fold. -/
theorem foldl_tail (installs : List Discovery) (k : Nat) :
    ∀ sdks : List JsSdk,
    (∀ j s, k ≤ j → sdks[j]? = some s →
      s.status = "Installed" ∧ s.path ≠ ""
        ∧ s.name = s.profile ++ "-" ++ s.arch ++ "-" ++ s.version) →
    ∀ j s, k ≤ j → (installs.foldl processDiscovery sdks)[j]? = some s →
      s.status = "Installed" ∧ s.path ≠ ""
        ∧ s.name = s.profile ++ "-" ++ s.arch ++ "-" ++ s.version := by
  induction installs with
  | nil => intro sdks h; simpa using h
  | cons d rest ih =>
    intro sdks h
    rw [List.foldl_cons]
    exact ih _ (processDiscovery_tail k sdks d h)

/-- C7: the reconciler merged output. (a) every catalog entry matched by
no discovery appears at its own index, unchanged except for the
initialization to status Not Installed; (b) every guard-passing discovery
matching no catalog entry yields a merged entry named
profile-arch-version with status Installed and a non-empty path; (c) the
catalog order is preserved: index i of the merged output carries the name
and logical key of catalog index i; (d) everything at indices at or
beyond the catalog length is a synthesized local-only entry: status
Installed, non-empty path, name built from its own key. -/
theorem C7_merged_output (catalog : List JsSdk) (installs : List Discovery) :
    (∀ (i : Nat) (c : JsSdk), catalog[i]? = some c →
      (∀ d ∈ installs, discMatch d c = false) →
      (dbDump catalog installs)[i]? = some (initStatus c))
    ∧ (∀ d ∈ installs, guardSkip d = false → (∀ c ∈ catalog, discMatch d c = false) →
      ∃ s ∈ dbDump catalog installs,
        s.name = d.profile ++ "-" ++ d.arch ++ "-" ++ d.version
        ∧ s.status = "Installed" ∧ s.path ≠ "")
    ∧ (∀ (i : Nat) (c : JsSdk), catalog[i]? = some c →
      ∃ s2 : JsSdk, (dbDump catalog installs)[i]? = some s2
        ∧ s2.name = c.name ∧ s2.profile = c.profile ∧ s2.version = c.version
        ∧ s2.arch = c.arch)
    ∧ (∀ (j : Nat) (s : JsSdk), catalog.length ≤ j →
      (dbDump catalog installs)[j]? = some s →
      s.status = "Installed" ∧ s.path ≠ ""
        ∧ s.name = s.profile ++ "-" ++ s.arch ++ "-" ++ s.version) := by
  have hinit : ∀ (i : Nat) (c : JsSdk), catalog[i]? = some c →
      (catalog.map initStatus)[i]? = some (initStatus c) := by
    intro i c h
    rw [List.getElem?_map, h]
    rfl
  refine ⟨?_, ?_, ?_, ?_⟩
  · intro i c hc hall
    exact foldl_untouched installs _ i (initStatus c) (hinit i c hc) hall
  · intro d hd hg hnocat
    obtain ⟨l1, l2, rfl⟩ := List.append_of_mem hd
    rw [dbDump, List.foldl_append, List.foldl_cons]
    apply foldl_keeps
    apply processDiscovery_creates catalog _ d hg hnocat
    apply foldl_shape
    intro s hs
    obtain ⟨c, hc, rfl⟩ := List.mem_map.mp hs
    exact Or.inl ⟨c, hc, rfl, rfl, rfl⟩
  · intro i c hc
    exact foldl_key_preserved installs _ i (initStatus c) (hinit i c hc)
  · intro j s hj hs
    refine foldl_tail installs catalog.length _ ?_ j s hj hs
    intro j2 s2 hj2 hs2
    rw [List.getElem?_eq_none (by rw [List.length_map]; exact hj2)] at hs2
    exact Option.noConfusion hs2

/-- C7 witness: with a one-entry catalog and one discovery of a different
key, the merged output keeps the catalog entry at index 0 with status Not
Installed, and contains the synthesized qemu-x86_64-8.0.0 entry with
status Installed and a non-empty path. -/
theorem C7_merged_output_witness :
    (dbDump [sampleCatalogEntry] [sampleDiscovery])[0]?
      = some (initStatus sampleCatalogEntry)
    ∧ ∃ s ∈ dbDump [sampleCatalogEntry] [sampleDiscovery],
        s.name = "qemu-x86_64-8.0.0" ∧ s.status = "Installed" ∧ s.path ≠ "" := by
  have h := C7_merged_output [sampleCatalogEntry] [sampleDiscovery]
  refine ⟨h.1 0 sampleCatalogEntry rfl (by decide), ?_⟩
  have h2 := h.2.1 sampleDiscovery (List.mem_singleton.mpr rfl) (by decide) (by decide)
  exact h2

/-- C6: the claim asserts that a catalog entry matched by a discovered
local install ends with status Installed and its path, setupFile and date
fields filled, the date with the normalized timestamp. The code refutes
the date part: the match branch (db-dump line 105) assigns the formatted
timestamp to the stray property sdk.data instead of sdk.date (the
synthesized branch at line 121 uses date), so the date field keeps its
catalog value. This theorem runs the embedded reconciler on the spec
scenario (Timestamp 202401151230): status, path and setupFile are filled,
but the timestamp lands in data while date is unchanged. -/
theorem C6_match_data_typo_eval :
    sdkDateOf ("202401151230\n") = "2024-01-15 12:30"
    ∧ dbDump [sampleCatalogEntry] [sampleMatchDiscovery]
      = [{ sampleCatalogEntry with
            status := "Installed",
            path := "/xdt/sdk/agl/4.0.2/aarch64",
            setupFile := "/xdt/sdk/agl/4.0.2/aarch64/environment-setup-aarch64",
            data := "2024-01-15 12:30" }]
    ∧ (dbDump [sampleCatalogEntry] [sampleMatchDiscovery]).map JsSdk.date
      = ["2017-12-01 10:00"]
    ∧ (dbDump [sampleCatalogEntry] [sampleMatchDiscovery]).map JsSdk.data
      = ["2024-01-15 12:30"] :=
  ⟨rfl, by decide, by decide, by decide⟩

/-- C10: the buffering thresholds are exactly the integer values of
XDS_SDK_BUF_STDOUT and XDS_SDK_BUF_STDERR when set and parseable, the
defaults 10 and 2000 otherwise (unset or unparseable values silently
ignored); and the state and error result of Install never depend on the
environment, so an invalid override cannot make Install fail. -/
theorem C10_env_thresholds (env : String → Option String) :
    (env ("XDS_SDK_BUF_STDOUT") = none → (computeBufSizes env).1 = 10)
    ∧ (∀ s, env ("XDS_SDK_BUF_STDOUT") = some s → goAtoi s = none →
        (computeBufSizes env).1 = 10)
    ∧ (∀ s v, env ("XDS_SDK_BUF_STDOUT") = some s → goAtoi s = some v →
        (computeBufSizes env).1 = v)
    ∧ (env ("XDS_SDK_BUF_STDERR") = none → (computeBufSizes env).2 = 2000)
    ∧ (∀ s, env ("XDS_SDK_BUF_STDERR") = some s → goAtoi s = none →
        (computeBufSizes env).2 = 2000)
    ∧ (∀ s v, env ("XDS_SDK_BUF_STDERR") = some s → goAtoi s = some v →
        (computeBufSizes env).2 = v)
    ∧ (∀ st file force timeout n spawnErr,
        (install st file force timeout n env spawnErr).1
          = (install st file force timeout n (fun _ => none) spawnErr).1
        ∧ (install st file force timeout n env spawnErr).2.2
          = (install st file force timeout n (fun _ => none) spawnErr).2.2) := by
  refine ⟨fun h => ?_, fun s h ha => ?_, fun s v h ha => ?_,
          fun h => ?_, fun s h ha => ?_, fun s v h ha => ?_,
          fun st file force timeout n spawnErr => ?_⟩
  · simp [computeBufSizes, h]
  · simp [computeBufSizes, h, ha]
  · simp [computeBufSizes, h, ha]
  · simp [computeBufSizes, h]
  · simp [computeBufSizes, h, ha]
  · simp [computeBufSizes, h, ha]
  · unfold install
    by_cases h1 : st.sdk.status = sdkStatusInstalled
    · simp [h1]
    · by_cases h2 : st.sdk.status = sdkStatusInstalling
      · simp [h1, h2]
      · cases spawnErr <;> simp [h1, h2]

/-- C10 witness: with XDS_SDK_BUF_STDOUT set to "7" and
XDS_SDK_BUF_STDERR set to the unparseable "bad", the thresholds are 7 and
the default 2000, and Install on an installed SDK returns the same error
as under the empty environment. -/
theorem C10_env_thresholds_witness :
    (computeBufSizes (fun k =>
        if k = "XDS_SDK_BUF_STDOUT" then some ("7")
        else if k = "XDS_SDK_BUF_STDERR" then some ("bad") else none)).1 = 7
    ∧ (computeBufSizes (fun k =>
        if k = "XDS_SDK_BUF_STDOUT" then some ("7")
        else if k = "XDS_SDK_BUF_STDERR" then some ("bad") else none)).2 = 2000
    ∧ (install { sdk := { status := sdkStatusInstalled } } "" false 0 1
          (fun k =>
            if k = "XDS_SDK_BUF_STDOUT" then some ("7")
            else if k = "XDS_SDK_BUF_STDERR" then some ("bad") else none) none).2.2
        = (install { sdk := { status := sdkStatusInstalled } } "" false 0 1
            (fun _ => none) none).2.2 := by
  have h := C10_env_thresholds (fun k =>
    if k = "XDS_SDK_BUF_STDOUT" then some ("7")
    else if k = "XDS_SDK_BUF_STDERR" then some ("bad") else none)
  exact ⟨h.2.2.1 ("7") 7 (by decide) (by decide),
         h.2.2.2.2.1 ("bad") (by decide) (by decide),
         (h.2.2.2.2.2.2 { sdk := { status := sdkStatusInstalled } } "" false 0 1 none).2⟩

end XdsServer
